import Mathlib

/-!
Verification development for the document-analyzer extraction engine
(`src/document_analyzer_improved.py`, class `DocumentProcessor` and
`CacheManager`).  Every definition below is a shallow embedding of a
function of that source file; external library behaviour (pdfplumber,
PyMuPDF, PyPDF2, pdf2image, tesseract, python-docx, textract, zipfile,
codecs, the filesystem) is abstracted into an environment record whose
fields give, per file path, exactly the observations the source code
makes of those libraries.  Logging (`print`) is omitted: it does not
influence any return value.
-/

/-! ## Python string primitives used by the source -/

/-- Model of Python `str.lower()` restricted to the ASCII range, which is
the only range the source applies it to (file extensions and the English
keywords password, encrypted, poppler). -/
def pyLower (s : String) : String := ⟨s.data.map Char.toLower⟩

/-- The whitespace characters stripped by Python `str.strip()` (ASCII part). -/
def isPySpace (c : Char) : Bool :=
  c = ' ' || c = '\n' || c = '\t' || c = '\r' || c = '\x0b' || c = '\x0c'

/-- Truthiness of `s.strip()` in Python: true iff the string has a
non-whitespace character.  The source only ever uses `strip()` results as
booleans, except in the archive OCR loop where `pyStrip` below is used. -/
def pyTruthy (s : String) : Bool := !(s.data.all isPySpace)

/-- Model of Python `str.strip()` (both ends, ASCII whitespace). -/
def pyStrip (s : String) : String :=
  ⟨((s.data.dropWhile isPySpace).reverse.dropWhile isPySpace).reverse⟩

/-- Occurrence of `pat` somewhere in the character list. -/
def subChars (pat : List Char) : List Char → Bool
  | [] => pat.isEmpty
  | c :: rest => List.isPrefixOf pat (c :: rest) || subChars pat rest

/-- Model of the Python `in` operator on strings: substring test. -/
def strContains (s pat : String) : Bool := subChars pat.data s.data

/-- Model of Python `s.endswith(suffix)`. -/
def strEndsWith (s suffix : String) : Bool := List.isSuffixOf suffix.data s.data

/-- Model of Python `sep.join(xs)`. -/
def pyJoin (sep : String) : List String → String
  | [] => ""
  | [s] => s
  | s :: rest => s ++ sep ++ pyJoin sep rest

/-- Model of Python `pathlib.Path(p).suffix`: the final extension of the
last path component, empty for dot-less names and for hidden files whose
only dot is the leading one. -/
def splitChar (sep : Char) : List Char → List (List Char)
  | [] => [[]]
  | c :: rest =>
    let r := splitChar sep rest
    if c = sep then [] :: r
    else
      match r with
      | [] => [[c]]
      | h :: t => (c :: h) :: t

def pathSuffix (p : String) : String :=
  let name := (splitChar ('/') p.data).getLastD []
  let parts := splitChar ('.') name
  match parts with
  | [] => ""
  | [_] => ""
  | first :: _ :: _ =>
    let ext := parts.getLastD []
    if ext = [] then ""
    else if first = [] && parts.length = 2 then ""
    else ⟨'.' :: ext⟩

/-! ## CacheManager (source lines 248-272)

The persistent JSON map `self.cache` is modelled as an association list
with Python-dict update semantics (`cacheSet` replaces in place or
appends).  File stat results are abstracted by a partial map from paths;
`st_mtime` is kept as a `Nat` because the source only ever formats it
into the freshness string and compares that string for equality. -/

structure FileStat where
  mtime : Nat
  size : Nat
  deriving DecidableEq, Repr

structure CacheEntry where
  hash : String
  text : String
  deriving DecidableEq, Repr

abbrev Cache := List (String × CacheEntry)

/-- Python dict lookup `self.cache.get(filepath)`. -/
def cacheGet (c : Cache) (k : String) : Option CacheEntry :=
  (c.find? (fun e => e.1 = k)).map (fun e => e.2)

/-- Python dict assignment `self.cache[filepath] = record`. -/
def cacheSet : Cache → String → CacheEntry → Cache
  | [], k, v => [(k, v)]
  | (k₀, v₀) :: rest, k, v =>
    if k₀ = k then (k, v) :: rest else (k₀, v₀) :: cacheSet rest k v

/-- `CacheManager.get_file_hash` (lines 248-254): formats mtime and size,
returning the empty string when `os.stat` raises. -/
def get_file_hash (st : String → Option FileStat) (fp : String) : String :=
  match st fp with
  | some s => toString s.mtime ++ "_" ++ toString s.size
  | none => ""

/-- `CacheManager.get_cached_text` (lines 256-263): cache record present
and freshness hash matching gives the stored text, otherwise `None`. -/
def get_cached_text (st : String → Option FileStat) (c : Cache) (fp : String) :
    Option String :=
  match cacheGet c fp with
  | some cd => if cd.hash = get_file_hash st fp then some cd.text else none
  | none => none

/-- `CacheManager.cache_text` (lines 265-272): store text under the path
with the current freshness hash (timestamp field omitted: never read). -/
def cache_text (st : String → Option FileStat) (c : Cache) (fp text : String) :
    Cache :=
  cacheSet c fp ⟨get_file_hash st fp, text⟩

/-! ## PDF fallback-chain extractor (`_extract_from_pdf`, lines 345-600)

A PDF file is abstracted by what each library call observes of it: the
open result of pdfplumber (error message or per-page extraction
results), the PyMuPDF view (`none` models an `ImportError` of `fitz`),
the PyPDF2 view with its explicit `is_encrypted` flag, and the OCR
toolchain (pdf2image importability, poppler discovery, rasterization
outcome with per-page OCR results).  A per-page result `Except.error`
models a page whose extraction call raised (caught per page in stages
1-3 and in the OCR loop, so such a page contributes no block).

Cooperative cancellation: `self._cancelled` is written from another
thread, so its successive reads are modelled as a stream
`cancel : Nat → Bool` consumed one read per loop iteration; the read
counter `k` is threaded through the loops that poll the flag. -/

deriving instance DecidableEq for Except

structure PyPdf2Doc where
  is_encrypted : Bool
  pages : List (Except String String)
  deriving DecidableEq, Repr

structure PdfView where
  size : Nat
  plumber : Except String (List (Except String String))
  fitz : Option (Except String (List (Except String String)))
  pypdf2 : Option (Except String PyPdf2Doc)
  pdf2imageOk : Bool
  popplerFound : Bool
  convert : Except String (List (Except String String))
  deriving DecidableEq, Repr

inductive Stage where
  | s1 | s2 | s3 | ocr
  deriving DecidableEq, Repr

/-- Page-block header of stage 1 (line 388) and of the simplified
archive-internal PDF path (line 658). -/
def pdfHdr1 (i : Nat) (t : String) : String :=
  "--- СТРАНИЦА " ++ toString (i + 1) ++ " ---\n" ++ t

/-- Page-block header of stage 2 (line 430). -/
def pdfHdr2 (i : Nat) (t : String) : String :=
  "--- СТРАНИЦА " ++ toString (i + 1) ++ " (PyMuPDF) ---\n" ++ t

/-- Page-block header of stage 3 (line 478). -/
def pdfHdr3 (i : Nat) (t : String) : String :=
  "--- СТРАНИЦА " ++ toString (i + 1) ++ " (PyPDF2) ---\n" ++ t

/-- Page-block header of the OCR stage (lines 565 and 736). -/
def pdfHdrOcr (i : Nat) (t : String) : String :=
  "--- СТРАНИЦА " ++ toString (i + 1) ++ " (OCR) ---\n" ++ t

/-- The large-file warning block appended to `texts` when a stage sees
more than 200 pages (lines 369, 418, 463, 551). -/
def pdfBigWarn (n : Nat) : String :=
  "⚠️ ВНИМАНИЕ: Файл содержит " ++ toString n ++
  " страниц. Обработка может занять значительное время.\n"

/-- One cancellation-polling page loop of `_extract_from_pdf` (stages
1-3 and the OCR loop share this shape): before each page the `_cancelled`
flag is read once (consuming one index of the stream); on `true` the
loop breaks, keeping what was accumulated; a page whose extraction
raised is skipped; a page whose text is non-blank contributes one
headed block.  Returns the blocks and the next read index. -/
def runStageChecked (hdr : Nat → String → String) (cancel : Nat → Bool) :
    Nat → Nat → List (Except String String) → List String × Nat
  | k, _, [] => ([], k)
  | k, i, p :: ps =>
    if cancel k then ([], k + 1)
    else
      let rest := runStageChecked hdr cancel (k + 1) (i + 1) ps
      match p with
      | .ok t => if pyTruthy t then (hdr i t :: rest.1, rest.2) else rest
      | .error _ => rest

/-- The blocks the same loop would produce with no cancellation:
specification device used to state partial-result preservation. -/
def stageBlocksAll (hdr : Nat → String → String) :
    Nat → List (Except String String) → List String
  | _, [] => []
  | i, p :: ps =>
    (match p with
     | .ok t => if pyTruthy t then [hdr i t] else []
     | .error _ => []) ++ stageBlocksAll hdr (i + 1) ps

/-- Stage 1, pdfplumber (lines 356-401).  An open failure whose message
mentions password or encryption is fatal for the file (line 400);
other open failures leave `texts` empty.  On success, the >200-page
warning is appended to `texts` first, then the page loop runs. -/
def pdfStage1 (v : PdfView) (cancel : Nat → Bool) (k : Nat) :
    Except String (List String × Nat) :=
  match v.plumber with
  | .error e =>
    if strContains (pyLower e) ("password") || strContains (pyLower e) ("encrypted")
    then .error ("PDF файл защищен паролем: " ++ e)
    else .ok ([], k)
  | .ok pages =>
    let warn := if pages.length > 200 then [pdfBigWarn pages.length] else []
    let r := runStageChecked pdfHdr1 cancel k 0 pages
    .ok (warn ++ r.1, r.2)

/-- Stage 2, PyMuPDF (lines 403-445).  `fitz = none` models the
`ImportError` branch (line 442); an open failure is non-fatal. -/
def pdfStage2 (v : PdfView) (cancel : Nat → Bool) (k : Nat) :
    List String × Nat :=
  match v.fitz with
  | none => ([], k)
  | some (.error _) => ([], k)
  | some (.ok pages) =>
    let warn := if pages.length > 200 then [pdfBigWarn pages.length] else []
    let r := runStageChecked pdfHdr2 cancel k 0 pages
    (warn ++ r.1, r.2)

/-- Stage 3, PyPDF2 (lines 447-489).  Any exception of the stage lands
in the handler at line 486, which re-raises (as fatal) exactly when the
lowercased message contains the English word encrypted; in particular
the explicit `is_encrypted` raise of line 467 (message "PDF файл
зашифрован", which is appended after the >200 warning) goes through the
same handler. -/
def pdfStage3 (v : PdfView) (cancel : Nat → Bool) (k : Nat) :
    Except String (List String × Nat) :=
  match v.pypdf2 with
  | none => .ok ([], k)
  | some (.error e) =>
    if strContains (pyLower e) ("encrypted")
    then .error ("PDF файл зашифрован: " ++ e)
    else .ok ([], k)
  | some (.ok doc) =>
    let warn := if doc.pages.length > 200 then [pdfBigWarn doc.pages.length] else []
    if doc.is_encrypted then
      let e := "PDF файл зашифрован"
      if strContains (pyLower e) ("encrypted")
      then .error ("PDF файл зашифрован: " ++ e)
      else .ok (warn, k)
    else
      let r := runStageChecked pdfHdr3 cancel k 0 doc.pages
      .ok (warn ++ r.1, r.2)

/-- The handler at lines 572-581 for any failure of the OCR conversion
block: a message mentioning poppler (or the pdftoppm page-count probe)
becomes the poppler remediation hint, anything else is wrapped as a
conversion error. -/
def pdfOcrHandler (e : String) : Except String (List String × Nat) :=
  if strContains (pyLower e) ("poppler") ||
     strContains (pyLower e) ("unable to get page count")
  then .error ("Для OCR требуется установить poppler-utils. Скачайте с https://github.com/oschwartz10612/poppler-windows/releases")
  else .error ("Ошибка конвертации PDF: " ++ e)

/-- Stage 4, OCR recovery (lines 491-588).  Missing tesseract is fatal
(line 498).  Because the handler at line 572 catches `Exception` before
the dead `except ImportError` at line 583, a pdf2image import failure is
routed through `pdfOcrHandler` with the Python import message, as is the
poppler-not-found raise of line 536 and any conversion failure. -/
def pdfStage4 (v : PdfView) (tesseract : Bool) (cancel : Nat → Bool) (k : Nat) :
    Except String (List String × Nat) :=
  if !tesseract then
    .error ("Tesseract OCR не установлен. Установите Tesseract для обработки отсканированных документов.")
  else if !v.pdf2imageOk then pdfOcrHandler ("No module named pdf2image")
  else if !v.popplerFound then pdfOcrHandler ("Poppler не найден")
  else
    match v.convert with
    | .error e => pdfOcrHandler e
    | .ok imgs =>
      let warn := if imgs.length > 200 then [pdfBigWarn imgs.length] else []
      let r := runStageChecked pdfHdrOcr cancel k 0 imgs
      .ok (warn ++ r.1, r.2)

/-- The wrapper of line 600: every fatal error of `_extract_from_pdf`
is re-raised with the file path prepended. -/
def pdfWrap (fp e : String) : String :=
  "Ошибка открытия PDF " ++ fp ++ ": " ++ e

structure PdfOut where
  result : Except String String
  stages : List Stage
  k : Nat
  deriving DecidableEq, Repr

/-- `_extract_from_pdf` (lines 345-600): zero-size check, then the four
stages, each of stages 2-4 gated on `if not texts:` (lines 404, 448,
492), i.e. attempted exactly when the accumulated block list — usable
pages plus any large-file warning — is still empty; finally the blocks
are joined with a blank line and a blank concatenation is fatal
(line 593).  `stages` records which gated stage bodies were entered. -/
def extract_from_pdf (v : PdfView) (tesseract : Bool) (cancel : Nat → Bool)
    (k : Nat) (fp : String) : PdfOut :=
  if v.size = 0 then ⟨.error (pdfWrap fp ("Файл пустой (0 байт)")), [], k⟩
  else
    match pdfStage1 v cancel k with
    | .error e => ⟨.error (pdfWrap fp e), [Stage.s1], k⟩
    | .ok (t1, k1) =>
      let g2 := t1 = []
      let (t2, k2) := if g2 then pdfStage2 v cancel k1 else (t1, k1)
      let st2 := [Stage.s1] ++ if g2 then [Stage.s2] else []
      let g3 := t2 = []
      if g3 then
        match pdfStage3 v cancel k2 with
        | .error e => ⟨.error (pdfWrap fp e), st2 ++ [Stage.s3], k2⟩
        | .ok (t3, k3) =>
          let g4 := t3 = []
          if g4 then
            match pdfStage4 v tesseract cancel k3 with
            | .error e => ⟨.error (pdfWrap fp e), st2 ++ [Stage.s3, Stage.ocr], k3⟩
            | .ok (t4, k4) =>
              let result := pyJoin ("\n\n") t4
              if pyTruthy result
              then ⟨.ok result, st2 ++ [Stage.s3, Stage.ocr], k4⟩
              else ⟨.error (pdfWrap fp ("Не удалось извлечь текст из PDF. Возможные причины: файл содержит только изображения без текстового слоя, или требуется установка Tesseract OCR для распознавания отсканированных документов.")), st2 ++ [Stage.s3, Stage.ocr], k4⟩
          else
            let result := pyJoin ("\n\n") t3
            if pyTruthy result
            then ⟨.ok result, st2 ++ [Stage.s3], k3⟩
            else ⟨.error (pdfWrap fp ("Не удалось извлечь текст из PDF. Возможные причины: файл содержит только изображения без текстового слоя, или требуется установка Tesseract OCR для распознавания отсканированных документов.")), st2 ++ [Stage.s3], k3⟩
      else
        let result := pyJoin ("\n\n") t2
        if pyTruthy result
        then ⟨.ok result, st2, k2⟩
        else ⟨.error (pdfWrap fp ("Не удалось извлечь текст из PDF. Возможные причины: файл содержит только изображения без текстового слоя, или требуется установка Tesseract OCR для распознавания отсканированных документов.")), st2, k2⟩

/-! ## Remaining single-format extractors -/

/-- The ordered encodings list of `_extract_from_text` (line 627). -/
def textEncodings : List String := ["utf-8", "cp1251", "latin-1"]

/-- The encoding loop of `_extract_from_text` (lines 628-634): first
successful whole-file decode wins, only decode failures are retried,
and exhausting the list raises a decode error naming the file.  The
decode oracle abstracts `open(filepath, encoding=e).read()`. -/
def decodeLoop (dec : String → Option String) (fp : String) :
    List String → Except String String
  | [] => .error ("Не удалось декодировать " ++ fp)
  | e :: rest =>
    match dec e with
    | some t => .ok t
    | none => decodeLoop dec fp rest

/-- `_extract_from_text` (lines 625-634). -/
def extract_from_text (dec : String → Option String) (fp : String) :
    Except String String :=
  decodeLoop dec fp textEncodings

/-- `_extract_from_docx` (lines 610-617): keep, in order, the original
text of every paragraph whose stripped text is non-blank, joined by
newlines.  The oracle gives the paragraph list or the raised open error. -/
def extract_from_docx (doc : Except String (List String)) :
    Except String String :=
  doc.map (fun ps => pyJoin ("\n") (ps.filter (fun t => pyTruthy t)))

/-- `_extract_from_image` (lines 602-608): capability gate then OCR. -/
def extract_from_image (tesseract : Bool) (ocr : Except String String) :
    Except String String :=
  if !tesseract then .error ("pytesseract не установлен") else ocr

/-- `_extract_from_legacy_doc` (lines 619-623): capability gate then
whole-file conversion. -/
def extract_from_legacy_doc (textractOk : Bool) (conv : Except String String) :
    Except String String :=
  if !textractOk
  then .error ("Файлы .doc/.rtf не поддерживаются. Для их обработки требуется установка библиотеки textract, которая не совместима с Python 3.13.")
  else conv

/-! ## Simplified archive-internal PDF path (`_extract_from_pdf_simple`,
lines 636-762).  No cancellation polling anywhere in this function.  The
pdfplumber loop has no per-page exception handler, so a raising page
aborts the loop (keeping earlier blocks); the OCR loop runs tesseract as
a subprocess whose per-image outcome is modelled as `Option String`
(`none` for a non-zero return code, `some` for the decoded stdout). -/

structure SimpleView where
  size : Nat
  plumber : Except String (List (Except String String))
  pdf2imageOk : Bool
  popplerFound : Bool
  convert : Except String (List (Option String))
  deriving DecidableEq, Repr

/-- The uninterruptible pdfplumber loop of lines 655-661. -/
def simpleTextLoop : Nat → List (Except String String) → List String
  | _, [] => []
  | _, .error _ :: _ => []
  | i, .ok t :: ps =>
    (if pyTruthy t then [pdfHdr1 i t] else []) ++ simpleTextLoop (i + 1) ps

/-- The uninterruptible OCR loop of lines 712-748: stdout is stripped
and appended when non-empty (line 728 strips, line 735 tests). -/
def simpleOcrLoop : Nat → List (Option String) → List String
  | _, [] => []
  | i, none :: rest => simpleOcrLoop (i + 1) rest
  | i, some t :: rest =>
    (if pyStrip t ≠ "" then [pdfHdrOcr i (pyStrip t)] else []) ++
    simpleOcrLoop (i + 1) rest

/-- The wrapper of line 762. -/
def simpleWrap (e : String) : String := "Ошибка обработки PDF: " ++ e

/-- `_extract_from_pdf_simple` (lines 636-762).  Note the asymmetries to
the full chain: a single direct parse then OCR, the poppler probe has no
PATH fallback, the `except ImportError` at line 750 is live, and an
empty final concatenation is returned as an empty string, not raised. -/
def extract_from_pdf_simple (tesseract : Bool) (v : SimpleView) :
    Except String String :=
  if v.size = 0 then .error (simpleWrap ("Файл пустой (0 байт)"))
  else
    let texts :=
      match v.plumber with
      | .error _ => []
      | .ok pages => simpleTextLoop 0 pages
    if texts = [] then
      if !tesseract then .error (simpleWrap ("Tesseract OCR не установлен."))
      else if !v.pdf2imageOk then .error (simpleWrap ("pdf2image не установлен"))
      else if !v.popplerFound then
        .error (simpleWrap ("Ошибка OCR: " ++ "Poppler не найден"))
      else
        match v.convert with
        | .error e => .error (simpleWrap ("Ошибка OCR: " ++ e))
        | .ok imgs => .ok (pyJoin ("\n\n") (simpleOcrLoop 0 imgs))
    else .ok (pyJoin ("\n\n") texts)

/-! ## Archive extractor and orchestrator -/

/-- One ZIP entry as observed by lines 800-894: its stored name, a read
failure of `zip_file.open/read` if any, the byte count, and the results
of the two text decodes attempted for `.txt`/`.md` entries. -/
structure ZipEntryView where
  name : String
  readErr : Option String
  size : Nat
  utf8 : Option String
  cp1251 : Option String
  deriving DecidableEq, Repr

/-- A ZIP container as observed by lines 770-793: file size, an open
failure, a `testzip` integrity failure, and the entry list. -/
structure ZipView where
  size : Nat
  openErr : Option String
  testErr : Option String
  entries : List ZipEntryView
  deriving DecidableEq, Repr

inductive XCall where
  | pdf | image | docx | legacy | txt | archive
  deriving DecidableEq, Repr

/-- Result record of `extract_text`: the returned pair, the cache state,
the next cancellation read index, the extractor branches dispatched
(instrumentation for the no-extractor-on-cache-hit property), and the
temporary files that were materialized and deleted along the way. -/
structure XOut where
  text : String
  success : Bool
  cache : Cache
  k : Nat
  calls : List XCall
  temps : List String
  deriving DecidableEq, Repr

/-- Result record of `_extract_from_archive`: raised error or returned
text, the `all_texts` block list, cache, read index, temp-name counter,
and the temporary files created (each deleted by the `finally` at
line 883 before the next entry starts). -/
structure ArchOut where
  result : Except String String
  blocks : List String
  cache : Cache
  k : Nat
  ctr : Nat
  temps : List String
  deriving DecidableEq, Repr

/-- The supported-entry allowlist of line 796. -/
def archSupportedExts : List String := [".txt", ".md", ".pdf", ".docx", ".doc", ".rtf"]

/-- The `any(file_name.lower().endswith(...))` test of line 801. -/
def archSupported (lname : String) : Bool :=
  archSupportedExts.any (fun e => strEndsWith lname e)

def archFileBlock (n t : String) : String :=
  "=== ФАЙЛ В АРХИВЕ: " ++ n ++ " ===\n" ++ t

def archReadErrBlock (n e : String) : String :=
  "=== ОШИБКА ЧТЕНИЯ ФАЙЛА В АРХИВЕ: " ++ n ++ " ===\n" ++ e

def archOcrErrBlock (n e : String) : String :=
  "=== ОШИБКА OCR PDF В АРХИВЕ: " ++ n ++ " ===\n" ++ e

def archProcErrBlock (n e : String) : String :=
  "=== ОШИБКА ОБРАБОТКИ ФАЙЛА В АРХИВЕ: " ++ n ++ " ===\n" ++ e

/-- The fixed `.rar` diagnostic block of line 903. -/
def rarMsg : String :=
  "RAR архивы пока не поддерживаются. Установите библиотеку rarfile для поддержки RAR."

/-- The wrapper of line 920. -/
def archWrap (fp e : String) : String :=
  "Ошибка обработки архива " ++ fp ++ ": " ++ e

/-- Environment: per-path observations of the filesystem and of every
external library, plus the two module-level capability flags and the
fresh-name source of `tempfile.NamedTemporaryFile`. -/
structure Env where
  stat : String → Option FileStat
  pdfView : String → PdfView
  simpleView : String → SimpleView
  imageOcr : String → Except String String
  docx : String → Except String (List String)
  legacy : String → Except String String
  textDec : String → String → Option String
  zip : String → ZipView
  tempName : Nat → String
  tesseract : Bool
  textractOk : Bool

/-- Intermediate state of the archive entry loop. -/
structure LoopOut where
  blocks : List String
  found : Bool
  cache : Cache
  k : Nat
  ctr : Nat
  temps : List String
  deriving DecidableEq, Repr

/-- Processing of one supported archive entry (lines 803-894): a read
failure yields a labeled error block; a zero-byte entry is skipped with
no block; `.txt`/`.md` entries are decoded inline (UTF-8 then cp1251,
blank or undecodable text contributes no block); other entries are
materialized to a fresh temporary file whose name ends with the entry
suffix, `.pdf` entries then go through the simplified PDF path and all
others through a recursive `extract_text` call on the temporary path,
each producing exactly one labeled block. -/
def archProcessEntry (inner : Cache → Nat → String → XOut) (env : Env)
    (cache : Cache) (k ctr : Nat) (e : ZipEntryView) : LoopOut :=
  match e.readErr with
  | some msg => ⟨[archReadErrBlock e.name msg], true, cache, k, ctr, []⟩
  | none =>
    if e.size = 0 then ⟨[], true, cache, k, ctr, []⟩
    else
      let lname := pyLower e.name
      if strEndsWith lname (".txt") || strEndsWith lname (".md") then
        match e.utf8 with
        | some t =>
          ⟨if pyTruthy t then [archFileBlock e.name t] else [], true, cache, k, ctr, []⟩
        | none =>
          match e.cp1251 with
          | some t =>
            ⟨if pyTruthy t then [archFileBlock e.name t] else [], true, cache, k, ctr, []⟩
          | none => ⟨[], true, cache, k, ctr, []⟩
      else
        let tmp := env.tempName ctr ++ pathSuffix e.name
        if strEndsWith lname (".pdf") then
          match extract_from_pdf_simple env.tesseract (env.simpleView tmp) with
          | .ok t =>
            if pyTruthy t
            then ⟨[archFileBlock e.name t], true, cache, k, ctr + 1, [tmp]⟩
            else ⟨[archOcrErrBlock e.name ("OCR не смог распознать текст. Возможно, документ плохого качества или содержит только изображения.")], true, cache, k, ctr + 1, [tmp]⟩
          | .error err => ⟨[archOcrErrBlock e.name err], true, cache, k, ctr + 1, [tmp]⟩
        else
          let r := inner cache k tmp
          if r.success && pyTruthy r.text
          then ⟨[archFileBlock e.name r.text], true, r.cache, r.k, ctr + 1, tmp :: r.temps⟩
          else ⟨[archProcErrBlock e.name ("Не удалось извлечь текст из документа.")], true, r.cache, r.k, ctr + 1, tmp :: r.temps⟩

/-- The entry loop of lines 800-894, also computing the
`found_supported_files` flag of line 797. -/
def archLoop (inner : Cache → Nat → String → XOut) (env : Env) :
    Cache → Nat → Nat → List ZipEntryView → LoopOut
  | cache, k, ctr, [] => ⟨[], false, cache, k, ctr, []⟩
  | cache, k, ctr, e :: es =>
    if archSupported (pyLower e.name) then
      let p := archProcessEntry inner env cache k ctr e
      let rest := archLoop inner env p.cache p.k p.ctr es
      ⟨p.blocks ++ rest.blocks, true, rest.cache, rest.k, rest.ctr, p.temps ++ rest.temps⟩
    else
      archLoop inner env cache k ctr es

/-- `_extract_from_archive` (lines 764-920).  ZIP files are validated
(non-zero size, integrity, non-empty entry list) and their supported
entries processed; `.rar` appends the fixed diagnostic block; any other
extension (`.7z` included, it has no branch) leaves `all_texts` empty;
a blank concatenation of the collected blocks raises, anything else is
returned even if every block is an error block. -/
def extract_from_archive (inner : Cache → Nat → String → XOut) (env : Env)
    (cache : Cache) (k : Nat) (fp : String) : ArchOut :=
  let ext := pyLower (pathSuffix fp)
  if ext = ".zip" then
    let z := env.zip fp
    if z.size = 0 then ⟨.error (archWrap fp ("ZIP файл пустой (0 байт)")), [], cache, k, 0, []⟩
    else
      match z.openErr with
      | some e => ⟨.error (archWrap fp e), [], cache, k, 0, []⟩
      | none =>
        match z.testErr with
        | some e => ⟨.error (archWrap fp ("ZIP файл поврежден: " ++ e)), [], cache, k, 0, []⟩
        | none =>
          if z.entries = [] then ⟨.error (archWrap fp ("ZIP архив пустой")), [], cache, k, 0, []⟩
          else
            let l := archLoop inner env cache k 0 z.entries
            if !l.found then
              ⟨.error (archWrap fp ("В ZIP архиве нет поддерживаемых файлов")), l.blocks, l.cache, l.k, l.ctr, l.temps⟩
            else
              let result := pyJoin ("\n\n") l.blocks
              if pyTruthy result then ⟨.ok result, l.blocks, l.cache, l.k, l.ctr, l.temps⟩
              else ⟨.error (archWrap fp ("Не удалось извлечь текст из архива. Возможные причины: архив пустой, поврежден, содержит только неподдерживаемые файлы, или PDF файлы внутри архива требуют OCR.")), l.blocks, l.cache, l.k, l.ctr, l.temps⟩
  else
    let bs := if ext = ".rar" then [rarMsg] else []
    let result := pyJoin ("\n\n") bs
    if pyTruthy result then ⟨.ok result, bs, cache, k, 0, []⟩
    else ⟨.error (archWrap fp ("Не удалось извлечь текст из архива. Возможные причины: архив пустой, поврежден, содержит только неподдерживаемые файлы, или PDF файлы внутри архива требуют OCR.")), bs, cache, k, 0, []⟩

/-- The closed extension mapping `SUPPORTED_EXTENSIONS` (lines 283-289). -/
def extsImages : List String := [".jpg", ".jpeg", ".png", ".bmp", ".tiff"]

def extsDocuments : List String := [".docx", ".doc", ".rtf"]

def extsPdfs : List String := [".pdf"]

def extsText : List String := [".txt", ".md"]

def extsArchives : List String := [".zip", ".rar", ".7z"]

/-- Membership in the full `SUPPORTED_EXTENSIONS` mapping. -/
def isSupportedExt (e : String) : Bool :=
  extsImages.contains e || extsDocuments.contains e || extsPdfs.contains e ||
  extsText.contains e || extsArchives.contains e

/-- The tail of `extract_text` (lines 321-339): a raised extraction
error yields `("", False)` with the cache untouched; blank text is a
failure and is not cached; non-blank text is cached under the file path
and returned with success. -/
def xFinish (env : Env) (cache : Cache) (fp : String)
    (r : Except String String) (k : Nat) (calls : List XCall)
    (temps : List String) : XOut :=
  match r with
  | .error _ => ⟨"", false, cache, k, calls, temps⟩
  | .ok t =>
    if pyTruthy t
    then ⟨t, true, cache_text env.stat cache fp t, k, calls, temps⟩
    else ⟨t, false, cache, k, calls, temps⟩

/-- `DocumentProcessor.extract_text` (lines 296-339): cache consult
first (early return on a fresh hit), then dispatch on the lowercased
extension through the closed mapping, then `xFinish`.  `fuel` bounds the
archive recursion depth (an archive entry is re-dispatched through
`extract_text` at line 869); entries of archive type are not on the
entry allowlist, so any fuel of at least the archive nesting interest
is faithful and `extract_text` below fixes fuel 2. -/
def extractTextStep (env : Env) (cancel : Nat → Bool)
    (archHandler : Cache → Nat → String → XOut)
    (cache : Cache) (k : Nat) (fp : String) : XOut :=
  match get_cached_text env.stat cache fp with
  | some t => ⟨t, true, cache, k, [], []⟩
  | none =>
    let ext := pyLower (pathSuffix fp)
    if extsPdfs.contains ext then
      let p := extract_from_pdf (env.pdfView fp) env.tesseract cancel k fp
      xFinish env cache fp p.result p.k [XCall.pdf] []
    else if extsImages.contains ext then
      xFinish env cache fp (extract_from_image env.tesseract (env.imageOcr fp)) k [XCall.image] []
    else if ext = ".docx" then
      xFinish env cache fp (extract_from_docx (env.docx fp)) k [XCall.docx] []
    else if ext = ".doc" || ext = ".rtf" then
      xFinish env cache fp (extract_from_legacy_doc env.textractOk (env.legacy fp)) k [XCall.legacy] []
    else if extsText.contains ext then
      xFinish env cache fp (extract_from_text (env.textDec fp) fp) k [XCall.txt] []
    else if extsArchives.contains ext then
      archHandler cache k fp
    else
      xFinish env cache fp (.ok "") k [] []

def extractText (env : Env) (cancel : Nat → Bool) :
    Nat → Cache → Nat → String → XOut
  | 0 =>
    extractTextStep env cancel (fun c kk _ => ⟨"", false, c, kk, [XCall.archive], []⟩)
  | fuel + 1 =>
    extractTextStep env cancel (fun c kk p =>
      let a := extract_from_archive (extractText env cancel fuel) env c kk p
      xFinish env a.cache p a.result a.k [XCall.archive] a.temps)

/-- The entry point with the fuel fixed at the faithful depth. -/
def extract_text (env : Env) (cancel : Nat → Bool) (cache : Cache) (k : Nat)
    (fp : String) : XOut :=
  extractText env cancel 2 cache k fp

/-! ## Concrete base environments used by witnesses and counterexamples -/

/-- A PDF on which every library fails neutrally. -/
def pdfViewBase : PdfView :=
  { size := 1, plumber := .error ("cannot open file"), fitz := none,
    pypdf2 := none, pdf2imageOk := false, popplerFound := false,
    convert := .error ("cannot convert") }

def simpleViewBase : SimpleView :=
  { size := 1, plumber := .error ("cannot open file"), pdf2imageOk := false,
    popplerFound := false, convert := .error ("cannot convert") }

def zipViewBase : ZipView :=
  { size := 1, openErr := none, testErr := none, entries := [] }

/-- A neutral environment: empty filesystem, every library call fails. -/
def envBase : Env :=
  { stat := fun _ => none, pdfView := fun _ => pdfViewBase,
    simpleView := fun _ => simpleViewBase,
    imageOcr := fun _ => .error ("ocr failed"),
    docx := fun _ => .error ("docx failed"),
    legacy := fun _ => .error ("conversion failed"),
    textDec := fun _ _ => none,
    zip := fun _ => zipViewBase,
    tempName := fun n => "/tmp/t" ++ toString n,
    tesseract := false, textractOk := false }

/-! ## General lemmas about the string model and the cache -/

theorem pyTruthy_append (s t : String) :
    pyTruthy (s ++ t) = (pyTruthy s || pyTruthy t) := by
  simp [pyTruthy, String.data_append, List.all_append, Bool.not_and]

theorem pyJoin_truthy (sep : String) :
    ∀ bs : List String, (∃ b ∈ bs, pyTruthy b) → pyTruthy (pyJoin sep bs) = true
  | [], h => by simp at h
  | [s], h => by
    simp at h
    simpa [pyJoin] using h
  | s :: s₂ :: rest, h => by
    simp only [pyJoin, pyTruthy_append]
    rcases h with ⟨b, hb, htr⟩
    rcases List.mem_cons.mp hb with rfl | hb₂
    · simp [htr]
    · have : pyTruthy (pyJoin sep (s₂ :: rest)) = true :=
        pyJoin_truthy sep (s₂ :: rest) ⟨b, hb₂, htr⟩
      simp [this]

theorem cacheGet_nil (k₁ : String) : cacheGet [] k₁ = none := by
  simp [cacheGet, List.find?]

theorem cacheGet_cons (a : String) (b : CacheEntry) (tl : Cache) (k₁ : String) :
    cacheGet ((a, b) :: tl) k₁ = if a = k₁ then some b else cacheGet tl k₁ := by
  by_cases h : a = k₁ <;> simp [cacheGet, List.find?, h]

theorem cacheGet_cacheSet (c : Cache) (k k₁ : String) (v : CacheEntry) :
    cacheGet (cacheSet c k v) k₁ = if k₁ = k then some v else cacheGet c k₁ := by
  induction c with
  | nil =>
    by_cases h : k₁ = k
    · simp [cacheSet, cacheGet_cons, h]
    · have h₂ : ¬ (k = k₁) := fun hh => h hh.symm
      simp [cacheSet, cacheGet_cons, cacheGet_nil, h, h₂]
  | cons hd tl ih =>
    obtain ⟨k₀, v₀⟩ := hd
    by_cases h0 : k₀ = k
    · subst h0
      simp only [cacheSet, if_pos rfl]
      by_cases h : k₁ = k₀
      · simp [cacheGet_cons, h]
      · have h₂ : ¬ (k₀ = k₁) := fun hh => h hh.symm
        simp [cacheGet_cons, h, h₂]
    · simp only [cacheSet, if_neg h0]
      rw [cacheGet_cons, cacheGet_cons]
      by_cases h : k₀ = k₁
      · have hk : ¬ (k₁ = k) := fun hh => h0 (h.trans hh)
        simp [h, hk]
      · simp [h, ih]

/-- Well-formedness of the cache: every stored text is non-blank.  This
is the observable form of the invariant that no record ever stems from a
failed or blank extraction. -/
def cacheWF (c : Cache) : Bool := c.all (fun kv => pyTruthy kv.2.text)

theorem cacheWF_set {c : Cache} {fp h t : String} (hc : cacheWF c = true)
    (ht : pyTruthy t = true) : cacheWF (cacheSet c fp ⟨h, t⟩) = true := by
  induction c with
  | nil => simp [cacheSet, cacheWF, ht]
  | cons hd tl ih =>
    obtain ⟨k₀, v₀⟩ := hd
    simp only [cacheWF, List.all_cons, Bool.and_eq_true] at hc
    by_cases h0 : k₀ = fp
    · simp [cacheSet, h0, cacheWF, ht, hc.2]
    · simp only [cacheSet, if_neg h0]
      have := ih hc.2
      simp [cacheWF, hc.1, ht] at this ⊢
      exact this

/-! ## Claim C3 -/

/-- C3: for every file whose cache record is present and whose freshness
signature (size and modification time) matches the current stat result,
`extract_text` returns the cached text with success, leaves the cache
unchanged, consumes no cancellation reads, and dispatches no format
extractor (the call list is empty). -/
theorem c3_cache_hit_returns_cached_no_extractor (env : Env)
    (cancel : Nat → Bool) (fuel : Nat) (cache : Cache) (k : Nat)
    (fp : String) (cd : CacheEntry)
    (h1 : cacheGet cache fp = some cd)
    (h2 : cd.hash = get_file_hash env.stat fp) :
    extractText env cancel fuel cache k fp = ⟨cd.text, true, cache, k, [], []⟩ := by
  have hct : get_cached_text env.stat cache fp = some cd.text := by
    simp [get_cached_text, h1, h2]
  cases fuel <;> simp [extractText, extractTextStep, hct]

def envStatW : Env :=
  { envBase with stat := fun p => if p = "r.txt" then some ⟨7, 3⟩ else none }

def cacheHitW : Cache := [("r.txt", ⟨"7_3", "кэш"⟩)]

/-- C3 witness: a concrete fresh cache hit. -/
theorem c3_cache_hit_witness :
    cacheGet cacheHitW "r.txt" = some ⟨"7_3", "кэш"⟩ ∧
    extractText envStatW (fun _ => false) 2 cacheHitW 0 "r.txt" =
      ⟨"кэш", true, cacheHitW, 0, [], []⟩ :=
  ⟨by decide,
   c3_cache_hit_returns_cached_no_extractor envStatW (fun _ => false) 2
     cacheHitW 0 "r.txt" ⟨"7_3", "кэш"⟩ (by decide) (by decide)⟩

/-! ## Claim C9 -/

/-- C9: for every file whose lowercased extension is outside the closed
`SUPPORTED_EXTENSIONS` mapping and which has no fresh cache record,
`extract_text` returns the pair (empty string, false) without raising:
no extractor is dispatched (empty call list) and nothing is cached. -/
theorem c9_unsupported_extension_no_raise (env : Env) (cancel : Nat → Bool)
    (fuel : Nat) (cache : Cache) (k : Nat) (fp : String)
    (hmiss : get_cached_text env.stat cache fp = none)
    (hext : isSupportedExt (pyLower (pathSuffix fp)) = false) :
    extractText env cancel fuel cache k fp = ⟨"", false, cache, k, [], []⟩ := by
  simp only [isSupportedExt, Bool.or_eq_false_iff] at hext
  obtain ⟨⟨⟨⟨hi, hd⟩, hp⟩, ht⟩, ha⟩ := hext
  have hi₁ : ¬ (pyLower (pathSuffix fp) ∈ extsImages) := by simpa using hi
  have hp₁ : ¬ (pyLower (pathSuffix fp) ∈ extsPdfs) := by simpa using hp
  have ht₁ : ¬ (pyLower (pathSuffix fp) ∈ extsText) := by simpa using ht
  have ha₁ : ¬ (pyLower (pathSuffix fp) ∈ extsArchives) := by simpa using ha
  have hdx : ¬ (pyLower (pathSuffix fp) = ".docx") := by
    intro h; rw [h] at hd; simp [extsDocuments] at hd
  have hdoc : ¬ (pyLower (pathSuffix fp) = ".doc") := by
    intro h; rw [h] at hd; simp [extsDocuments] at hd
  have hrtf : ¬ (pyLower (pathSuffix fp) = ".rtf") := by
    intro h; rw [h] at hd; simp [extsDocuments] at hd
  cases fuel <;>
    simp [extractText, extractTextStep, hmiss, hi₁, hp₁, ht₁, ha₁,
      hdx, hdoc, hrtf, xFinish, pyTruthy]

/-- C9 witness: an existing `.exe` file. -/
theorem c9_unsupported_extension_witness :
    get_cached_text envBase.stat [] "prog.exe" = none ∧
    isSupportedExt (pyLower (pathSuffix "prog.exe")) = false ∧
    extractText envBase (fun _ => false) 2 [] 0 "prog.exe" =
      ⟨"", false, [], 0, [], []⟩ :=
  ⟨by decide, by decide,
   c9_unsupported_extension_no_raise envBase (fun _ => false) 2 [] 0
     "prog.exe" (by decide) (by decide)⟩

/-! ## Lemmas about the archive loop and the orchestrator -/

theorem pyTruthy_archFileBlock (n t : String) :
    pyTruthy (archFileBlock n t) = true := by
  have h : pyTruthy ("=== ФАЙЛ В АРХИВЕ: ") = true := by decide
  simp [archFileBlock, pyTruthy_append, h]

theorem pyTruthy_archReadErrBlock (n t : String) :
    pyTruthy (archReadErrBlock n t) = true := by
  have h : pyTruthy ("=== ОШИБКА ЧТЕНИЯ ФАЙЛА В АРХИВЕ: ") = true := by decide
  simp [archReadErrBlock, pyTruthy_append, h]

theorem pyTruthy_archOcrErrBlock (n t : String) :
    pyTruthy (archOcrErrBlock n t) = true := by
  have h : pyTruthy ("=== ОШИБКА OCR PDF В АРХИВЕ: ") = true := by decide
  simp [archOcrErrBlock, pyTruthy_append, h]

theorem pyTruthy_archProcErrBlock (n t : String) :
    pyTruthy (archProcErrBlock n t) = true := by
  have h : pyTruthy ("=== ОШИБКА ОБРАБОТКИ ФАЙЛА В АРХИВЕ: ") = true := by decide
  simp [archProcErrBlock, pyTruthy_append, h]

/-- Cache discipline of the dispatch used inside the archive loop: a
failed call leaves the cache unchanged, and well-formedness of the
cache is preserved. -/
def InnerCacheOk (inner : Cache → Nat → String → XOut) : Prop :=
  ∀ c kk p, ((inner c kk p).success = false → (inner c kk p).cache = c) ∧
    (cacheWF c = true → cacheWF (inner c kk p).cache = true)

/-- Read-counter discipline: the dispatch performs no cancellation
reads. -/
def InnerKOk (inner : Cache → Nat → String → XOut) : Prop :=
  ∀ c kk p, (inner c kk p).k = kk

theorem archProcessEntry_spec (inner : Cache → Nat → String → XOut) (env : Env)
    (cache : Cache) (k ctr : Nat) (e : ZipEntryView)
    (hin : InnerCacheOk inner) :
    (archProcessEntry inner env cache k ctr e).found = true ∧
    ((archProcessEntry inner env cache k ctr e).blocks = [] →
      (archProcessEntry inner env cache k ctr e).cache = cache) ∧
    (∀ b ∈ (archProcessEntry inner env cache k ctr e).blocks, pyTruthy b = true) ∧
    (cacheWF cache = true →
      cacheWF (archProcessEntry inner env cache k ctr e).cache = true) ∧
    ((e.readErr = none → e.size ≠ 0) →
      (strEndsWith (pyLower e.name) (".txt") ||
       strEndsWith (pyLower e.name) (".md")) = false →
      (archProcessEntry inner env cache k ctr e).blocks.length = 1) := by
  unfold archProcessEntry
  rcases e with ⟨name, readErr, size, utf8, cp1251⟩
  rcases readErr with _ | msg
  case some =>
    simp [pyTruthy_archReadErrBlock]
  case none =>
    simp only []
    by_cases hs : size = 0
    · simp [hs]
    · simp only [hs, if_neg hs]
      by_cases htxt : (strEndsWith (pyLower name) (".txt") ||
          strEndsWith (pyLower name) (".md")) = true
      · simp only [htxt, if_true]
        rcases utf8 with _ | t
        · rcases cp1251 with _ | t2
          · simp [htxt]
          · by_cases htr : pyTruthy t2 <;> simp [htr, htxt, pyTruthy_archFileBlock]
        · by_cases htr : pyTruthy t <;> simp [htr, htxt, pyTruthy_archFileBlock]
      · rw [Bool.not_eq_true] at htxt
        simp only [htxt, Bool.false_eq_true, if_false]
        by_cases hpdf : strEndsWith (pyLower name) (".pdf") = true
        · simp only [hpdf, if_true]
          rcases hq : extract_from_pdf_simple env.tesseract
              (env.simpleView (env.tempName ctr ++ pathSuffix name)) with err | t
          · simp [pyTruthy_archOcrErrBlock]
          · by_cases htr : pyTruthy t <;>
              simp [htr, pyTruthy_archFileBlock, pyTruthy_archOcrErrBlock]
        · rw [Bool.not_eq_true] at hpdf
          simp only [hpdf, Bool.false_eq_true, if_false]
          obtain ⟨hfail, hwf⟩ := hin cache k (env.tempName ctr ++ pathSuffix name)
          by_cases hsuc : ((inner cache k (env.tempName ctr ++ pathSuffix name)).success
              && pyTruthy (inner cache k (env.tempName ctr ++ pathSuffix name)).text) = true
          · simp [hsuc, pyTruthy_archFileBlock]
            exact hwf
          · rw [Bool.not_eq_true] at hsuc
            simp [hsuc, pyTruthy_archProcErrBlock]
            exact hwf

theorem archProcessEntry_k (inner : Cache → Nat → String → XOut) (env : Env)
    (cache : Cache) (k ctr : Nat) (e : ZipEntryView)
    (hin : InnerKOk inner) :
    (archProcessEntry inner env cache k ctr e).k = k := by
  unfold archProcessEntry
  rcases e with ⟨name, readErr, size, utf8, cp1251⟩
  rcases readErr with _ | msg
  · simp only []
    by_cases hs : size = 0
    · simp [hs]
    · simp only [hs, if_false, if_neg hs]
      by_cases htxt : strEndsWith (pyLower name) (".txt") || strEndsWith (pyLower name) (".md")
      · simp only [htxt, if_true]
        rcases utf8 with _ | t
        · rcases cp1251 with _ | t2 <;> simp
        · simp
      · simp only [htxt, if_false, Bool.false_eq_true]
        by_cases hpdf : strEndsWith (pyLower name) (".pdf")
        · simp only [hpdf, if_true]
          rcases hq : extract_from_pdf_simple env.tesseract
              (env.simpleView (env.tempName ctr ++ pathSuffix name)) with err | t
          · simp
          · by_cases htr : pyTruthy t <;> simp [htr]
        · simp only [hpdf, if_false, Bool.false_eq_true]
          by_cases hsuc : (inner cache k (env.tempName ctr ++ pathSuffix name)).success
              && pyTruthy (inner cache k (env.tempName ctr ++ pathSuffix name)).text
          · simp only [hsuc]
            simp [hin cache k (env.tempName ctr ++ pathSuffix name)]
          · simp only [hsuc]
            simp [hin cache k (env.tempName ctr ++ pathSuffix name)]
  · simp

theorem archLoop_spec (inner : Cache → Nat → String → XOut) (env : Env)
    (hin : InnerCacheOk inner) :
    ∀ (es : List ZipEntryView) (cache : Cache) (k ctr : Nat),
    (archLoop inner env cache k ctr es).found
      = es.any (fun e => archSupported (pyLower e.name)) ∧
    ((archLoop inner env cache k ctr es).blocks = [] →
      (archLoop inner env cache k ctr es).cache = cache) ∧
    (∀ b ∈ (archLoop inner env cache k ctr es).blocks, pyTruthy b = true) ∧
    (cacheWF cache = true →
      cacheWF (archLoop inner env cache k ctr es).cache = true) ∧
    ((∀ e ∈ es, archSupported (pyLower e.name) = true →
        ((e.readErr = none → e.size ≠ 0) ∧
         (strEndsWith (pyLower e.name) (".txt") ||
          strEndsWith (pyLower e.name) (".md")) = false)) →
      (archLoop inner env cache k ctr es).blocks.length =
        (es.filter (fun e => archSupported (pyLower e.name))).length) := by
  intro es
  induction es with
  | nil => intro cache k ctr; simp [archLoop]
  | cons e es ih =>
    intro cache k ctr
    rw [archLoop]
    by_cases hsup : archSupported (pyLower e.name) = true
    · simp only [hsup, if_true]
      obtain ⟨pfound, pnil, ptr, pwf, pone⟩ :=
        archProcessEntry_spec inner env cache k ctr e hin
      obtain ⟨rfound, rnil, rtr, rwf, rone⟩ :=
        ih (archProcessEntry inner env cache k ctr e).cache
          (archProcessEntry inner env cache k ctr e).k
          (archProcessEntry inner env cache k ctr e).ctr
      refine ⟨?_, ?_, ?_, ?_, ?_⟩
      · simp [hsup]
      · intro hb
        rcases List.append_eq_nil.mp hb with ⟨h1, h2⟩
        exact (rnil h2).trans (pnil h1)
      · intro b hb
        simp only [List.mem_append] at hb
        rcases hb with hb | hb
        · exact ptr b hb
        · exact rtr b hb
      · intro hwf
        exact rwf (pwf hwf)
      · intro hmat
        simp only [List.length_append, List.filter]
        rw [hsup]
        simp only [List.length_cons]
        have h1 : (archProcessEntry inner env cache k ctr e).blocks.length = 1 := by
          obtain ⟨hma, hmb⟩ := hmat e (List.mem_cons_self e es) hsup
          exact pone hma hmb
        rw [h1, rone (fun x hx => hmat x (List.mem_cons_of_mem e hx))]
        omega
    · rw [Bool.not_eq_true] at hsup
      simp only [hsup, Bool.false_eq_true, if_false]
      obtain ⟨rfound, rnil, rtr, rwf, rone⟩ := ih cache k ctr
      refine ⟨?_, rnil, rtr, rwf, ?_⟩
      · simp [rfound, hsup]
      · intro hmat
        rw [rone (fun x hx => hmat x (List.mem_cons_of_mem e hx))]
        simp [List.filter, hsup]

theorem archLoop_k (inner : Cache → Nat → String → XOut) (env : Env)
    (hin : InnerKOk inner) :
    ∀ (es : List ZipEntryView) (cache : Cache) (k ctr : Nat),
    (archLoop inner env cache k ctr es).k = k := by
  intro es
  induction es with
  | nil => intro cache k ctr; simp [archLoop]
  | cons e es ih =>
    intro cache k ctr
    rw [archLoop]
    split
    · simp only []
      rw [ih]
      exact archProcessEntry_k inner env cache k ctr e hin
    · exact ih cache k ctr

theorem blocks_truthy_join (bs : List String)
    (htr : ∀ b ∈ bs, pyTruthy b = true)
    (hjoin : pyTruthy (pyJoin ("\n\n") bs) = false) :
    bs = [] := by
  cases bs with
  | nil => rfl
  | cons b rest =>
    have : pyTruthy (pyJoin ("\n\n") (b :: rest)) = true :=
      pyJoin_truthy ("\n\n") (b :: rest)
        ⟨b, List.mem_cons_self b rest, htr b (List.mem_cons_self b rest)⟩
    rw [this] at hjoin
    cases hjoin

theorem extract_from_archive_spec (inner : Cache → Nat → String → XOut)
    (env : Env) (cache : Cache) (k : Nat) (fp : String)
    (hin : InnerCacheOk inner) :
    (∀ e, (extract_from_archive inner env cache k fp).result = .error e →
      (extract_from_archive inner env cache k fp).cache = cache) ∧
    (∀ t, (extract_from_archive inner env cache k fp).result = .ok t →
      pyTruthy t = true) ∧
    (cacheWF cache = true →
      cacheWF (extract_from_archive inner env cache k fp).cache = true) := by
  by_cases hz : pyLower (pathSuffix fp) = ".zip"
  · simp only [extract_from_archive, hz, if_pos rfl]
    by_cases hs : (env.zip fp).size = 0
    · simp [hs]
    · simp only [hs, if_neg hs]
      rcases hoe : (env.zip fp).openErr with _ | oe
      · rcases hte : (env.zip fp).testErr with _ | te
        · by_cases hne : (env.zip fp).entries = []
          · simp [hne]
          · simp only [hne, if_neg hne]
            obtain ⟨lfound, lnil, ltr, lwf, lone⟩ :=
              archLoop_spec inner env hin (env.zip fp).entries cache k 0
            by_cases hf : (archLoop inner env cache k 0 (env.zip fp).entries).found
            · simp only [hf, Bool.not_true, Bool.false_eq_true, if_false]
              by_cases hj : pyTruthy (pyJoin ("\n\n")
                  (archLoop inner env cache k 0 (env.zip fp).entries).blocks) = true
              · simp only [hj, if_pos rfl]
                refine ⟨?_, ?_, lwf⟩
                · intro e he; cases he
                · intro t ht
                  injection ht with ht
                  rw [← ht]; exact hj
              · rw [Bool.not_eq_true] at hj
                simp only [hj, Bool.false_eq_true, if_false]
                have hbl : (archLoop inner env cache k 0 (env.zip fp).entries).blocks = [] :=
                  blocks_truthy_join _ ltr hj
                refine ⟨?_, ?_, lwf⟩
                · intro e _; exact lnil hbl
                · intro t ht; cases ht
            · rw [Bool.not_eq_true] at hf
              simp only [hf, Bool.not_false, if_pos rfl]
              have hbl : (archLoop inner env cache k 0 (env.zip fp).entries).blocks = [] := by
                have hany : ((env.zip fp).entries.any
                    (fun e => archSupported (pyLower e.name))) = false := by
                  rw [← lfound, hf]
                have hmat : ∀ e ∈ (env.zip fp).entries,
                    archSupported (pyLower e.name) = true →
                    ((e.readErr = none → e.size ≠ 0) ∧
                     (strEndsWith (pyLower e.name) (".txt") ||
                      strEndsWith (pyLower e.name) (".md")) = false) := by
                  intro e he hsup
                  rw [List.any_eq_false] at hany
                  exact absurd hsup (by simpa using hany e he)
                have hfil : ((env.zip fp).entries.filter
                    (fun e => archSupported (pyLower e.name))) = [] := by
                  rw [List.filter_eq_nil_iff]
                  intro e he
                  rw [List.any_eq_false] at hany
                  simpa using hany e he
                have := lone hmat
                rw [hfil] at this
                simpa using this
              refine ⟨?_, ?_, lwf⟩
              · intro e _; exact lnil hbl
              · intro t ht; cases ht
        · simp [hoe, hte]
      · simp [hoe]
  · simp only [extract_from_archive, hz, if_neg hz]
    by_cases hr : pyLower (pathSuffix fp) = ".rar"
    · have hrt : pyTruthy (pyJoin ("\n\n") [rarMsg]) = true := by decide
      simp only [hr, if_pos rfl, hrt]
      refine ⟨?_, ?_, fun h => h⟩
      · intro e he; cases he
      · intro t ht
        injection ht with ht
        rw [← ht]; exact hrt
    · have hrt : pyTruthy (pyJoin ("\n\n") ([] : List String)) = false := by decide
      simp only [hr, Bool.false_eq_true, if_neg hr, hrt]
      refine ⟨?_, ?_, fun h => h⟩
      · intro e _; rfl
      · intro t ht; cases ht

theorem extract_from_archive_k (inner : Cache → Nat → String → XOut)
    (env : Env) (cache : Cache) (k : Nat) (fp : String)
    (hin : InnerKOk inner) :
    (extract_from_archive inner env cache k fp).k = k := by
  by_cases hz : pyLower (pathSuffix fp) = ".zip"
  · simp only [extract_from_archive, hz, if_pos rfl]
    by_cases hs : (env.zip fp).size = 0
    · simp [hs]
    · simp only [hs, if_neg hs]
      rcases hoe : (env.zip fp).openErr with _ | oe
      · rcases hte : (env.zip fp).testErr with _ | te
        · by_cases hne : (env.zip fp).entries = []
          · simp [hne]
          · simp only [hne, if_neg hne]
            have hlk := archLoop_k inner env hin (env.zip fp).entries cache k 0
            by_cases hf : (archLoop inner env cache k 0 (env.zip fp).entries).found
            · simp only [hf, Bool.not_true, Bool.false_eq_true, if_false]
              by_cases hj : pyTruthy (pyJoin ("\n\n")
                  (archLoop inner env cache k 0 (env.zip fp).entries).blocks) = true
              · simp [hj, hlk]
              · rw [Bool.not_eq_true] at hj
                simp [hj, hlk]
            · rw [Bool.not_eq_true] at hf
              simp [hf, hlk]
        · simp [hoe, hte]
      · simp [hoe]
  · simp only [extract_from_archive, if_neg hz]
    split <;> rfl
theorem cacheWF_get {c : Cache} {fp : String} {cd : CacheEntry}
    (hwf : cacheWF c = true) (h : cacheGet c fp = some cd) :
    pyTruthy cd.text = true := by
  unfold cacheGet at h
  rcases hf : c.find? (fun e => e.1 = fp) with _ | e
  · rw [hf] at h; cases h
  · rw [hf] at h
    simp at h
    have hm := List.mem_of_find?_eq_some hf
    rw [cacheWF, List.all_eq_true] at hwf
    have he := hwf e hm
    rw [← h]
    simpa using he

theorem get_cached_text_some {st : String → Option FileStat} {c : Cache}
    {fp t : String} (h : get_cached_text st c fp = some t) :
    ∃ cd, cacheGet c fp = some cd ∧ cd.text = t := by
  unfold get_cached_text at h
  rcases hg : cacheGet c fp with _ | cd
  · rw [hg] at h; cases h
  · rw [hg] at h
    by_cases hh : cd.hash = get_file_hash st fp
    · simp only [hh, if_true] at h
      injection h with h
      exact ⟨cd, rfl, h⟩
    · simp only [hh, if_false] at h
      cases h

theorem xFinish_spec (env : Env) (cache : Cache) (fp : String)
    (r : Except String String) (k : Nat) (calls : List XCall)
    (temps : List String) :
    ((xFinish env cache fp r k calls temps).success = false →
      (xFinish env cache fp r k calls temps).cache = cache) ∧
    (cacheWF cache = true →
      cacheWF (xFinish env cache fp r k calls temps).cache = true) ∧
    (cacheWF cache = true →
      (xFinish env cache fp r k calls temps).success = true →
      pyTruthy (xFinish env cache fp r k calls temps).text = true) := by
  rcases r with e | t
  · simp [xFinish]
  · by_cases ht : pyTruthy t = true
    · simp only [xFinish, ht, if_pos rfl]
      refine ⟨?_, ?_, ?_⟩
      · intro h; simp at h
      · intro hwf
        exact cacheWF_set hwf ht
      · intro _ _; exact ht
    · rw [Bool.not_eq_true] at ht
      simp [xFinish, ht]

theorem extractTextStep_spec (env : Env) (cancel : Nat → Bool)
    (archHandler : Cache → Nat → String → XOut) (cache : Cache) (k : Nat)
    (fp : String)
    (hh1 : (archHandler cache k fp).success = false →
      (archHandler cache k fp).cache = cache)
    (hh2 : cacheWF cache = true → cacheWF (archHandler cache k fp).cache = true)
    (hh3 : cacheWF cache = true → (archHandler cache k fp).success = true →
      pyTruthy (archHandler cache k fp).text = true) :
    ((extractTextStep env cancel archHandler cache k fp).success = false →
      (extractTextStep env cancel archHandler cache k fp).cache = cache) ∧
    (cacheWF cache = true →
      cacheWF (extractTextStep env cancel archHandler cache k fp).cache = true) ∧
    (cacheWF cache = true →
      (extractTextStep env cancel archHandler cache k fp).success = true →
      pyTruthy (extractTextStep env cancel archHandler cache k fp).text = true) := by
  unfold extractTextStep
  rcases hct : get_cached_text env.stat cache fp with _ | t
  · simp only []
    split
    · exact xFinish_spec env cache fp _ _ _ _
    · split
      · exact xFinish_spec env cache fp _ _ _ _
      · split
        · exact xFinish_spec env cache fp _ _ _ _
        · split
          · exact xFinish_spec env cache fp _ _ _ _
          · split
            · exact xFinish_spec env cache fp _ _ _ _
            · split
              · exact ⟨hh1, hh2, hh3⟩
              · exact xFinish_spec env cache fp _ _ _ _
  · simp only []
    obtain ⟨cd, hcd, hcdt⟩ := get_cached_text_some hct
    refine ⟨?_, ?_, ?_⟩
    · intro h; simp at h
    · intro hw; exact hw
    · intro hw _
      rw [← hcdt]
      exact cacheWF_get hw hcd

theorem extractText_spec (env : Env) (cancel : Nat → Bool) :
    ∀ (fuel : Nat) (cache : Cache) (k : Nat) (fp : String),
    ((extractText env cancel fuel cache k fp).success = false →
      (extractText env cancel fuel cache k fp).cache = cache) ∧
    (cacheWF cache = true →
      cacheWF (extractText env cancel fuel cache k fp).cache = true) ∧
    (cacheWF cache = true →
      (extractText env cancel fuel cache k fp).success = true →
      pyTruthy (extractText env cancel fuel cache k fp).text = true) := by
  intro fuel
  induction fuel with
  | zero =>
    intro cache k fp
    exact extractTextStep_spec env cancel _ cache k fp
      (fun _ => rfl) (fun h => h) (fun _ h => by cases h)
  | succ n ihn =>
    intro cache k fp
    have hinner : InnerCacheOk (extractText env cancel n) := by
      intro c kk p
      exact ⟨(ihn c kk p).1, (ihn c kk p).2.1⟩
    obtain ⟨ae, aok, awf⟩ :=
      extract_from_archive_spec (extractText env cancel n) env cache k fp hinner
    apply extractTextStep_spec env cancel _ cache k fp
    · intro hs
      rcases ha : (extract_from_archive (extractText env cancel n) env cache k fp).result
          with e | t
      · have h1 : (xFinish env
            (extract_from_archive (extractText env cancel n) env cache k fp).cache fp
            (extract_from_archive (extractText env cancel n) env cache k fp).result
            (extract_from_archive (extractText env cancel n) env cache k fp).k
            [XCall.archive]
            (extract_from_archive (extractText env cancel n) env cache k fp).temps).cache
            = (extract_from_archive (extractText env cancel n) env cache k fp).cache := by
          simp [xFinish, ha]
        simp only []
        rw [h1]
        exact ae e ha
      · have htr := aok t ha
        have : (xFinish env
            (extract_from_archive (extractText env cancel n) env cache k fp).cache fp
            (extract_from_archive (extractText env cancel n) env cache k fp).result
            (extract_from_archive (extractText env cancel n) env cache k fp).k
            [XCall.archive]
            (extract_from_archive (extractText env cancel n) env cache k fp).temps).success
            = true := by
          simp [xFinish, ha, htr]
        simp only [] at hs
        rw [this] at hs
        cases hs
    · intro hw
      exact (xFinish_spec env _ fp _ _ _ _).2.1 (awf hw)
    · intro hw hs
      exact (xFinish_spec env _ fp _ _ _ _).2.2 (awf hw) hs

/-! ## Claim C4 -/

/-- C4: if extraction yields blank text or raises, `extract_text` returns
success=false and writes nothing to the result cache; starting from a
well-formed cache (every stored text non-blank) the cache stays
well-formed, so it never contains a record produced by an extraction
that returned success=false, and any successful call returns non-blank
text. -/
theorem c4_failure_never_cached (env : Env) (cancel : Nat → Bool)
    (cache : Cache) (k : Nat) (fp : String) (hwf : cacheWF cache = true) :
    ((extract_text env cancel cache k fp).success = false →
      (extract_text env cancel cache k fp).cache = cache) ∧
    cacheWF (extract_text env cancel cache k fp).cache = true ∧
    ((extract_text env cancel cache k fp).success = true →
      pyTruthy (extract_text env cancel cache k fp).text = true) := by
  obtain ⟨h1, h2, h3⟩ := extractText_spec env cancel 2 cache k fp
  exact ⟨h1, h2 hwf, h3 hwf⟩

/-- C4 witness: a text file that fails to decode. -/
theorem c4_witness :
    cacheWF [] = true ∧
    (((extract_text envBase (fun _ => false) [] 0 "r.txt").success = false →
      (extract_text envBase (fun _ => false) [] 0 "r.txt").cache = []) ∧
    cacheWF (extract_text envBase (fun _ => false) [] 0 "r.txt").cache = true ∧
    ((extract_text envBase (fun _ => false) [] 0 "r.txt").success = true →
      pyTruthy (extract_text envBase (fun _ => false) [] 0 "r.txt").text = true)) :=
  ⟨by decide, c4_failure_never_cached envBase (fun _ => false) [] 0 "r.txt" (by decide)⟩

/-! ## Claim C8 -/

/-- C8: the plain-text extractor tries utf-8, cp1251, latin-1 in that
fixed order against the whole decoded content, returns the first
successful decode, and when every encoding fails it raises a decode
error naming the file; there is no partial-decode fallback. -/
theorem c8_text_encoding_chain (dec : String → Option String) (fp : String) :
    textEncodings = ["utf-8", "cp1251", "latin-1"] ∧
    (∀ t, dec ("utf-8") = some t → extract_from_text dec fp = .ok t) ∧
    (∀ t, dec ("utf-8") = none → dec ("cp1251") = some t →
      extract_from_text dec fp = .ok t) ∧
    (∀ t, dec ("utf-8") = none → dec ("cp1251") = none →
      dec ("latin-1") = some t → extract_from_text dec fp = .ok t) ∧
    (dec ("utf-8") = none → dec ("cp1251") = none → dec ("latin-1") = none →
      extract_from_text dec fp = .error ("Не удалось декодировать " ++ fp)) := by
  refine ⟨rfl, ?_, ?_, ?_, ?_⟩ <;>
    intros <;> simp [extract_from_text, decodeLoop, textEncodings, *]

def decW : String → Option String :=
  fun e => if e = "cp1251" then some ("Привет") else none

/-- C8 witness: content that only cp1251 decodes. -/
theorem c8_text_encoding_witness :
    decW ("utf-8") = none ∧ decW ("cp1251") = some ("Привет") ∧
    extract_from_text decW "r.txt" = .ok ("Привет") :=
  ⟨rfl, rfl, (c8_text_encoding_chain decW "r.txt").2.2.1 ("Привет") rfl rfl⟩

/-! ## Claim C6 -/

theorem pyTruthy_rarMsg : pyTruthy rarMsg = true := by decide

set_option maxRecDepth 100000 in
/-- C6 counterexample: a `.7z` file is not given the fixed diagnostic
block; the archive extractor raises (no `.7z` branch exists) and the
file fails with empty text rather than counting as processed. -/
theorem c6_counterexample_7z :
    pyLower (pathSuffix "a.7z") = ".7z" ∧
    (extract_from_archive (extractText envBase (fun _ => false) 1) envBase
      [] 0 "a.7z").result =
      .error (archWrap "a.7z" ("Не удалось извлечь текст из архива. Возможные причины: архив пустой, поврежден, содержит только неподдерживаемые файлы, или PDF файлы внутри архива требуют OCR.")) ∧
    extract_text envBase (fun _ => false) [] 0 "a.7z" =
      ⟨"", false, [], 0, [XCall.archive], []⟩ := by
  refine ⟨by decide, by decide, by decide⟩

/-- C6 amended: only `.rar` files receive the fixed
"not supported, install rarfile" diagnostic block and count as a
processed success (the block is even cached); `.7z` files have no
handler branch, so the archive extractor raises and the file fails
with `("", false)`. -/
theorem c6_amended_rar_only (env : Env) (cancel : Nat → Bool) (fuel : Nat)
    (cache : Cache) (k : Nat) (fp : String)
    (hmiss : get_cached_text env.stat cache fp = none) :
    (pyLower (pathSuffix fp) = ".rar" →
      extractText env cancel (fuel + 1) cache k fp =
        ⟨rarMsg, true, cache_text env.stat cache fp rarMsg, k, [XCall.archive], []⟩) ∧
    (pyLower (pathSuffix fp) = ".7z" →
      extractText env cancel (fuel + 1) cache k fp =
        ⟨"", false, cache, k, [XCall.archive], []⟩) := by
  have hr : pyTruthy rarMsg = true := pyTruthy_rarMsg
  have he : pyTruthy "" = false := by decide
  constructor <;> intro hext <;>
    simp [extractText, extractTextStep, hmiss, hext, extract_from_archive,
      extsPdfs, extsImages, extsText, extsArchives, xFinish, pyJoin, hr, he]

/-- C6 witness: a concrete `.rar` file counts as processed. -/
theorem c6_amended_witness :
    get_cached_text envBase.stat [] "b.rar" = none ∧
    pyLower (pathSuffix "b.rar") = ".rar" ∧
    extractText envBase (fun _ => false) 2 [] 0 "b.rar" =
      ⟨rarMsg, true, cache_text envBase.stat [] "b.rar" rarMsg, 0,
       [XCall.archive], []⟩ :=
  ⟨by decide, by decide,
   (c6_amended_rar_only envBase (fun _ => false) 1 [] 0 "b.rar" (by decide)).1
     (by decide)⟩

/-! ## Claim C2 -/

def vEnc : PdfView :=
  { pdfViewBase with
    plumber := .error ("cannot open file"),
    pypdf2 := some (.ok { is_encrypted := true, pages := [Except.ok ""] }),
    pdf2imageOk := true, popplerFound := true,
    convert := .ok [Except.ok ("распознанный текст")] }

/-- C2: evidence of the code defect.  A PDF whose tertiary parser
reports the explicit `is_encrypted` flag does not fail with an
encryption error: the raise of line 467 ("PDF файл зашифрован") is
caught by the stage handler at line 486, whose re-raise test looks for
the English substring "encrypted" in the lowercased Russian message and
finds none, so the exception is swallowed and the OCR recovery stage
runs (and can even succeed). -/
theorem c2_encrypted_flag_swallowed_ocr_runs :
    (∃ d, vEnc.pypdf2 = some (.ok d) ∧ d.is_encrypted = true) ∧
    strContains (pyLower ("PDF файл зашифрован")) ("encrypted") = false ∧
    Stage.ocr ∈ (extract_from_pdf vEnc true (fun _ => false) 0 "enc.pdf").stages ∧
    (extract_from_pdf vEnc true (fun _ => false) 0 "enc.pdf").result =
      .ok ("--- СТРАНИЦА 1 (OCR) ---\nраспознанный текст") :=
  ⟨⟨_, rfl, rfl⟩, by decide, by decide, by decide⟩

/-! ## Claim C1 -/

def pdfPages201 : List (Except String String) := List.replicate 201 (Except.ok "")

def v201 : PdfView := { pdfViewBase with plumber := .ok pdfPages201 }

def v200 : PdfView :=
  { pdfViewBase with plumber := .ok (List.replicate 200 (Except.ok "")) }

set_option maxRecDepth 1000000 in
/-- C1 counterexample: a 201-page PDF whose every page has empty text.
Stage 1 produced zero usable pages, yet the secondary stage is never
attempted because the >200-page warning block alone makes `texts`
non-empty; the identical file with 200 pages attempts all later stages.
The warning thereby changes which fallback stages run, and the 201-page
file even "succeeds" with only the warning text. -/
theorem c1_counterexample_warning_gates_fallback :
    (∀ p ∈ pdfPages201, p = Except.ok "") ∧
    (extract_from_pdf v201 true (fun _ => false) 0 "big.pdf").stages = [Stage.s1] ∧
    Stage.s2 ∉ (extract_from_pdf v201 true (fun _ => false) 0 "big.pdf").stages ∧
    (extract_from_pdf v201 true (fun _ => false) 0 "big.pdf").result =
      .ok (pdfBigWarn 201) ∧
    (extract_from_pdf v200 true (fun _ => false) 0 "big.pdf").stages =
      [Stage.s1, Stage.s2, Stage.s3, Stage.ocr] := by
  refine ⟨fun p hp => List.eq_of_mem_replicate hp, ?_, ?_, ?_, ?_⟩ <;> decide

/-- C1 amended: each later stage is attempted exactly when the block
list accumulated by the prior stages — usable page blocks plus any
large-file warning block — is still empty.  For a file whose primary
parse sees at most 200 pages this coincides with "zero usable pages",
but for a file with more than 200 pages the warning block alone makes
the list non-empty, so the later stages are suppressed by the warning
annotation. -/
theorem c1_amended_stage_gating (v : PdfView) (tess : Bool)
    (cancel : Nat → Bool) (k : Nat) (fp : String) (t1 : List String) (k1 : Nat)
    (hsz : v.size ≠ 0)
    (h1 : pdfStage1 v cancel k = .ok (t1, k1)) :
    (Stage.s2 ∈ (extract_from_pdf v tess cancel k fp).stages ↔ t1 = []) ∧
    (∀ pages, v.plumber = .ok pages → pages.length ≤ 200 →
      (t1 = [] ↔ (runStageChecked pdfHdr1 cancel k 0 pages).1 = [])) ∧
    (∀ pages, v.plumber = .ok pages → 200 < pages.length → t1 ≠ []) := by
  refine ⟨?_, ?_, ?_⟩
  · constructor
    · intro hmem
      by_contra ht
      have hnot : Stage.s2 ∉ (extract_from_pdf v tess cancel k fp).stages := by
        simp [extract_from_pdf, hsz, h1, ht]
        repeat' split
        all_goals simp
      exact hnot hmem
    · intro ht
      rw [ht] at h1
      simp [extract_from_pdf, hsz, h1]
      repeat' split
      all_goals simp
  · intro pages hpl hlen
    rw [pdfStage1, hpl] at h1
    have hno : ¬ (pages.length > 200) := by omega
    simp only [if_neg hno, List.nil_append, Except.ok.injEq, Prod.mk.injEq] at h1
    rw [← h1.1]
  · intro pages hpl hlen
    rw [pdfStage1, hpl] at h1
    simp only [if_pos hlen, Except.ok.injEq, Prod.mk.injEq] at h1
    intro hcon
    rw [← h1.1] at hcon
    simp at hcon

def v200gate : PdfView :=
  { pdfViewBase with plumber := .ok [Except.ok "", Except.ok ("текст")] }

/-- C1 amended witness: a 2-page PDF with one blank page and one text
page. -/
theorem c1_amended_witness :
    v200gate.size ≠ 0 ∧
    pdfStage1 v200gate (fun _ => false) 0 = .ok (["--- СТРАНИЦА 2 ---\nтекст"], 2) ∧
    (Stage.s2 ∈ (extract_from_pdf v200gate true (fun _ => false) 0 "g.pdf").stages ↔
      (["--- СТРАНИЦА 2 ---\nтекст"] : List String) = []) :=
  ⟨by decide, by decide,
   (c1_amended_stage_gating v200gate true (fun _ => false) 0 "g.pdf"
     ["--- СТРАНИЦА 2 ---\nтекст"] 2 (by decide) (by decide)).1⟩

/-! ## Claim C5 -/

def envZipTxt : Env :=
  { envBase with
    zip := fun p => if p = "d.zip"
      then { size := 10, openErr := none, testErr := none,
             entries := [{ name := "a.txt", readErr := none, size := 3,
                           utf8 := some ("   "), cp1251 := none }] }
      else zipViewBase }

set_option maxRecDepth 100000 in
/-- C5 counterexample: a ZIP with one supported entry (a `.txt` with
whitespace-only content) produces zero labeled blocks — the entry is
silently dropped — and although N = 1 the overall result is a failure,
not a success. -/
theorem c5_counterexample_dropped_txt_entry :
    (envZipTxt.zip "d.zip").entries.length = 1 ∧
    archSupported (pyLower "a.txt") = true ∧
    (extract_from_archive (extractText envZipTxt (fun _ => false) 1) envZipTxt
      [] 0 "d.zip").blocks = [] ∧
    extract_text envZipTxt (fun _ => false) [] 0 "d.zip" =
      ⟨"", false, [], 0, [XCall.archive], []⟩ := by
  refine ⟨by decide, by decide, by decide, by decide⟩

/-- C5 amended: the exactly-N-blocks accounting holds for the
materialized entry kinds only.  For a valid ZIP each supported entry of
kind `.pdf`/`.docx`/`.doc`/`.rtf` that is readable-nonzero or unreadable
contributes exactly one labeled block (success or error), so with N
such supported entries the output has exactly N blocks and the archive
succeeds whenever N ≥ 1; but zero-byte entries and `.txt`/`.md` entries
whose decode is blank or fails contribute no block and can make the
whole archive fail despite N ≥ 1 supported entries. -/
theorem c5_amended_materialized_blocks (env : Env) (cancel : Nat → Bool)
    (fuel : Nat) (cache : Cache) (k : Nat) (fp : String)
    (hz : pyLower (pathSuffix fp) = ".zip")
    (hmiss : get_cached_text env.stat cache fp = none)
    (hsz : (env.zip fp).size ≠ 0)
    (hoe : (env.zip fp).openErr = none)
    (hte : (env.zip fp).testErr = none)
    (hne : (env.zip fp).entries ≠ [])
    (hmat : ∀ e ∈ (env.zip fp).entries, archSupported (pyLower e.name) = true →
      ((e.readErr = none → e.size ≠ 0) ∧
       (strEndsWith (pyLower e.name) (".txt") ||
        strEndsWith (pyLower e.name) (".md")) = false)) :
    (extract_from_archive (extractText env cancel fuel) env cache k fp).blocks.length
      = ((env.zip fp).entries.filter (fun e => archSupported (pyLower e.name))).length ∧
    (((env.zip fp).entries.filter (fun e => archSupported (pyLower e.name))) ≠ [] →
      (extractText env cancel (fuel + 1) cache k fp).success = true) := by
  have hinner : InnerCacheOk (extractText env cancel fuel) := fun c kk p =>
    ⟨(extractText_spec env cancel fuel c kk p).1,
     (extractText_spec env cancel fuel c kk p).2.1⟩
  obtain ⟨lfound, lnil, ltr, lwf, lone⟩ :=
    archLoop_spec (extractText env cancel fuel) env hinner (env.zip fp).entries cache k 0
  have hblocks : (extract_from_archive (extractText env cancel fuel) env cache k fp).blocks
      = (archLoop (extractText env cancel fuel) env cache k 0 (env.zip fp).entries).blocks := by
    simp only [extract_from_archive, if_pos hz, if_neg hsz, hoe, hte, if_neg hne]
    split
    · rfl
    · split <;> rfl
  constructor
  · rw [hblocks]
    exact lone hmat
  · intro hfil
    have hfound : (archLoop (extractText env cancel fuel) env cache k 0
        (env.zip fp).entries).found = true := by
      rw [lfound]
      rcases List.exists_mem_of_ne_nil _ hfil with ⟨e, he⟩
      have hsup := List.of_mem_filter he
      have hee := List.mem_of_mem_filter he
      exact List.any_eq_true.mpr ⟨e, hee, by simpa using hsup⟩
    have hlen := lone hmat
    have hbne : (archLoop (extractText env cancel fuel) env cache k 0
        (env.zip fp).entries).blocks ≠ [] := by
      intro hc
      rw [hc] at hlen
      simp only [List.length_nil] at hlen
      exact hfil (List.length_eq_zero.mp hlen.symm)
    have hj : pyTruthy (pyJoin ("\n\n") (archLoop (extractText env cancel fuel) env
        cache k 0 (env.zip fp).entries).blocks) = true := by
      apply pyJoin_truthy
      rcases List.exists_mem_of_ne_nil _ hbne with ⟨b, hb⟩
      exact ⟨b, hb, ltr b hb⟩
    have hres : (extract_from_archive (extractText env cancel fuel) env cache k fp).result
        = .ok (pyJoin ("\n\n") (archLoop (extractText env cancel fuel) env cache k 0
            (env.zip fp).entries).blocks) := by
      simp only [extract_from_archive, if_pos hz, if_neg hsz, hoe, hte,
        if_neg hne, hfound, hj]
      simp
    have hnp : ¬ (((".zip" : String)) ∈ extsPdfs) := by decide
    have hni : ¬ (((".zip" : String)) ∈ extsImages) := by decide
    have hnt : ¬ (((".zip" : String)) ∈ extsText) := by decide
    have hna : ((".zip" : String)) ∈ extsArchives := by decide
    have hstep : extractText env cancel (fuel + 1) cache k fp =
        xFinish env
          (extract_from_archive (extractText env cancel fuel) env cache k fp).cache fp
          (extract_from_archive (extractText env cancel fuel) env cache k fp).result
          (extract_from_archive (extractText env cancel fuel) env cache k fp).k
          [XCall.archive]
          (extract_from_archive (extractText env cancel fuel) env cache k fp).temps := by
      simp only [extractText, extractTextStep, hmiss, hz]
      simp [hnp, hni, hnt, hna]
    rw [hstep, hres]
    simp [xFinish, hj]

def envC5W : Env :=
  { envBase with
    zip := fun p => if p = "n.zip"
      then { size := 9, openErr := none, testErr := none,
             entries := [{ name := "doc1.docx", readErr := none, size := 4,
                           utf8 := none, cp1251 := none },
                         { name := "bad.pdf", readErr := none, size := 7,
                           utf8 := none, cp1251 := none }] }
      else zipViewBase,
    docx := fun p => if p = "/tmp/t0.docx" then .ok ["привет"] else .error ("нет") }

/-- C5 amended witness: a ZIP with two materialized entries, one
succeeding (docx), one failing (pdf): 2 supported entries, 2 blocks,
overall success. -/
theorem c5_amended_witness :
    pyLower (pathSuffix "n.zip") = ".zip" ∧
    ((extract_from_archive (extractText envC5W (fun _ => false) 1) envC5W
        [] 0 "n.zip").blocks.length
      = ((envC5W.zip "n.zip").entries.filter
          (fun e => archSupported (pyLower e.name))).length ∧
    (((envC5W.zip "n.zip").entries.filter
        (fun e => archSupported (pyLower e.name))) ≠ [] →
      (extractText envC5W (fun _ => false) (1 + 1) [] 0 "n.zip").success = true)) :=
  ⟨by decide,
   c5_amended_materialized_blocks envC5W (fun _ => false) 1 [] 0 "n.zip"
     (by decide) (by decide) (by decide) (by decide) (by decide) (by decide)
     (by decide)⟩

/-! ## Claim C7 -/

theorem runStageChecked_cancel_take (hdr : Nat → String → String) :
    ∀ (ps : List (Except String String)) (k i n : Nat),
    runStageChecked hdr (fun j => decide (k + n ≤ j)) k i ps =
      (stageBlocksAll hdr i (ps.take n),
       if ps.length ≤ n then k + ps.length else k + n + 1) := by
  intro ps
  induction ps with
  | nil => intro k i n; simp [runStageChecked, stageBlocksAll]
  | cons p ps ih =>
    intro k i n
    cases n with
    | zero =>
      have hc : decide (k + 0 ≤ k) = true := by simp
      simp [runStageChecked, hc, stageBlocksAll]
    | succ m =>
      have harr : k + (m + 1) = (k + 1) + m := by omega
      simp only [harr]
      rw [runStageChecked]
      have hc : ¬ ((k + 1) + m ≤ k) := by omega
      simp only [decide_eq_false hc, Bool.false_eq_true, if_false]
      rw [ih (k + 1) (i + 1) m]
      cases p with
      | error e =>
        simp only [stageBlocksAll, List.take_succ_cons, List.nil_append,
          Prod.mk.injEq, List.length_cons]
        refine ⟨trivial, ?_⟩
        split <;> split <;> omega
      | ok t =>
        by_cases htr : pyTruthy t = true
        · simp only [htr, if_true, stageBlocksAll, List.take_succ_cons,
            List.singleton_append, Prod.mk.injEq, List.length_cons]
          refine ⟨trivial, ?_⟩
          split <;> split <;> omega
        · rw [Bool.not_eq_true] at htr
          simp only [htr, Bool.false_eq_true, if_false, stageBlocksAll,
            List.take_succ_cons, List.nil_append, Prod.mk.injEq, List.length_cons]
          refine ⟨trivial, ?_⟩
          split <;> split <;> omega

def envZipPdf : Env :=
  { envBase with
    zip := fun p => if p = "c.zip"
      then { size := 10, openErr := none, testErr := none,
             entries := [{ name := "s.pdf", readErr := none, size := 4,
                           utf8 := none, cp1251 := none }] }
      else zipViewBase,
    simpleView := fun p => if p = "/tmp/t0.pdf"
      then { simpleViewBase with
             plumber := .ok [Except.ok ("альфа"), Except.ok ("бета")] }
      else simpleViewBase }

set_option maxRecDepth 100000 in
/-- C7 counterexample: with the cancellation flag constantly true, a ZIP
containing a two-page PDF is still fully processed — both pages of the
archive-internal simplified PDF path appear in the output and the read
counter stays at 0, i.e. the archive entry loop and the simplified PDF
path never consult the flag, refuting "checked at every per-page and
per-entry loop boundary of every extraction loop". -/
theorem c7_counterexample_simple_pdf_ignores_cancel :
    extract_text envZipPdf (fun _ => true) [] 0 "c.zip" =
      ⟨"=== ФАЙЛ В АРХИВЕ: s.pdf ===\n--- СТРАНИЦА 1 ---\nальфа\n\n--- СТРАНИЦА 2 ---\nбета",
       true,
       [("c.zip",
         ⟨"", "=== ФАЙЛ В АРХИВЕ: s.pdf ===\n--- СТРАНИЦА 1 ---\nальфа\n\n--- СТРАНИЦА 2 ---\nбета"⟩)],
       0, [XCall.archive], ["/tmp/t0.pdf"]⟩ := by decide

/-- C7 amended: the four page loops of the main PDF extractor poll the
flag once before every page — a loop that reads true stops at once with
nothing further processed, and for a flag that turns true after n reads
the loop returns exactly the blocks of the first n pages (partial text
preserved); but the archive extractor itself performs no reads at all
(its read counter is unchanged whenever the recursive per-entry dispatch
performs none, which covers the `.pdf` entries handled by the
uninterruptible simplified path). -/
theorem c7_amended_cancellation_polling :
    (∀ (hdr : Nat → String → String) (cancel : Nat → Bool) (k i : Nat)
        (p : Except String String) (ps : List (Except String String)),
      cancel k = true → runStageChecked hdr cancel k i (p :: ps) = ([], k + 1)) ∧
    (∀ (hdr : Nat → String → String) (ps : List (Except String String))
        (k i n : Nat),
      runStageChecked hdr (fun j => decide (k + n ≤ j)) k i ps =
        (stageBlocksAll hdr i (ps.take n),
         if ps.length ≤ n then k + ps.length else k + n + 1)) ∧
    (∀ (inner : Cache → Nat → String → XOut) (env : Env) (cache : Cache)
        (k : Nat) (fp : String), InnerKOk inner →
      (extract_from_archive inner env cache k fp).k = k) := by
  refine ⟨?_, ?_, ?_⟩
  · intro hdr cancel k i p ps h
    simp [runStageChecked, h]
  · intro hdr ps k i n
    exact runStageChecked_cancel_take hdr ps k i n
  · intro inner env cache k fp hin
    exact extract_from_archive_k inner env cache k fp hin

/-- C7 amended witness: concrete instances of all three conjuncts. -/
theorem c7_amended_cancellation_witness :
    ((fun _ : Nat => true) 5 = true ∧
     runStageChecked pdfHdr1 (fun _ => true) 5 0 [Except.ok ("а")] = ([], 6)) ∧
    (InnerKOk (fun c kk _ => ⟨"", false, c, kk, [], []⟩) ∧
     (extract_from_archive (fun c kk _ => ⟨"", false, c, kk, [], []⟩) envBase
       [] 3 "w.zip").k = 3) :=
  ⟨⟨rfl, c7_amended_cancellation_polling.1 pdfHdr1 (fun _ => true) 5 0
      (Except.ok ("а")) [] rfl⟩,
   ⟨fun _ _ _ => rfl,
    c7_amended_cancellation_polling.2.2 (fun c kk _ => ⟨"", false, c, kk, [], []⟩)
      envBase [] 3 "w.zip" (fun _ _ _ => rfl)⟩⟩

/-! ## Claim C10 -/

/-- C10: when a ZIP entry of materialized kind (here `.docx`) is written
to a temporary file and successfully extracted through the full
dispatch, the result cache gains a record whose key is the ephemeral
temporary path — not the archive path and not the entry name — and that
temporary path is on the deleted-temporaries list of the run, i.e. the
successful archive processing leaves a cache record for a path that no
longer exists once the temporary file is removed. -/
theorem c10_cache_record_keyed_by_temp_path (env : Env) (cancel : Nat → Bool)
    (cache : Cache) (k : Nat) (fp ename tmp : String) (zsz esz : Nat)
    (paras : List String)
    (hz : pyLower (pathSuffix fp) = ".zip")
    (hmiss : get_cached_text env.stat cache fp = none)
    (hent : env.zip fp = ⟨zsz, none, none,
      [⟨ename, none, esz, none, none⟩]⟩)
    (hzsz : zsz ≠ 0) (hesz : esz ≠ 0)
    (hdocx : strEndsWith (pyLower ename) (".docx") = true)
    (hnottxt : strEndsWith (pyLower ename) (".txt") = false)
    (hnotmd : strEndsWith (pyLower ename) (".md") = false)
    (hnotpdf : strEndsWith (pyLower ename) (".pdf") = false)
    (htmp : tmp = env.tempName 0 ++ pathSuffix ename)
    (htmpmiss : get_cached_text env.stat cache tmp = none)
    (htmpext : pyLower (pathSuffix tmp) = ".docx")
    (hdres : env.docx tmp = .ok paras)
    (hjoin : pyTruthy (pyJoin ("\n") (paras.filter (fun t => pyTruthy t))) = true)
    (hneq : tmp ≠ fp) (hne1 : ename ≠ fp) (hne2 : ename ≠ tmp) :
    (extract_text env cancel cache k fp).success = true ∧
    tmp ∈ (extract_text env cancel cache k fp).temps ∧
    cacheGet (extract_text env cancel cache k fp).cache tmp =
      some ⟨get_file_hash env.stat tmp,
            pyJoin ("\n") (paras.filter (fun t => pyTruthy t))⟩ ∧
    cacheGet (extract_text env cancel cache k fp).cache ename =
      cacheGet cache ename := by
  have hnp : ¬ (((".docx" : String)) ∈ extsPdfs) := by decide
  have hni : ¬ (((".docx" : String)) ∈ extsImages) := by decide
  have hinner : extractText env cancel 1 cache k tmp =
      ⟨pyJoin ("\n") (paras.filter (fun t => pyTruthy t)), true,
       cache_text env.stat cache tmp
         (pyJoin ("\n") (paras.filter (fun t => pyTruthy t))),
       k, [XCall.docx], []⟩ := by
    simp only [extractText, extractTextStep, htmpmiss, htmpext]
    simp [hnp, hni, extract_from_docx, hdres, xFinish, hjoin, Except.map]
  have hsup : archSupported (pyLower ename) = true := by
    simp [archSupported, archSupportedExts, hdocx]
  have hentry : archProcessEntry (extractText env cancel 1) env cache k 0
      ⟨ename, none, esz, none, none⟩ =
      ⟨[archFileBlock ename (pyJoin ("\n") (paras.filter (fun t => pyTruthy t)))],
       true,
       cache_text env.stat cache tmp
         (pyJoin ("\n") (paras.filter (fun t => pyTruthy t))),
       k, 1, [tmp]⟩ := by
    simp only [archProcessEntry]
    rw [← htmp]
    simp [hesz, hnottxt, hnotmd, hnotpdf, hinner, hjoin]
  have harch : extract_from_archive (extractText env cancel 1) env cache k fp =
      ⟨.ok (archFileBlock ename (pyJoin ("\n") (paras.filter (fun t => pyTruthy t)))),
       [archFileBlock ename (pyJoin ("\n") (paras.filter (fun t => pyTruthy t)))],
       cache_text env.stat cache tmp
         (pyJoin ("\n") (paras.filter (fun t => pyTruthy t))),
       k, 1, [tmp]⟩ := by
    simp only [extract_from_archive, if_pos hz, hent]
    simp only [archLoop, hsup, if_pos rfl, hentry]
    simp [hzsz, archLoop, pyJoin, pyTruthy_archFileBlock]
  have hstep : extract_text env cancel cache k fp =
      xFinish env
        (extract_from_archive (extractText env cancel 1) env cache k fp).cache fp
        (extract_from_archive (extractText env cancel 1) env cache k fp).result
        (extract_from_archive (extractText env cancel 1) env cache k fp).k
        [XCall.archive]
        (extract_from_archive (extractText env cancel 1) env cache k fp).temps := by
    have hnp2 : ¬ (((".zip" : String)) ∈ extsPdfs) := by decide
    have hni2 : ¬ (((".zip" : String)) ∈ extsImages) := by decide
    have hnt2 : ¬ (((".zip" : String)) ∈ extsText) := by decide
    have hna2 : ((".zip" : String)) ∈ extsArchives := by decide
    simp only [extract_text, extractText, extractTextStep, hmiss, hz]
    simp [hnp2, hni2, hnt2, hna2]
  rw [hstep, harch]
  have hbt : pyTruthy (archFileBlock ename
      (pyJoin ("\n") (paras.filter (fun t => pyTruthy t)))) = true :=
    pyTruthy_archFileBlock _ _
  simp only [xFinish, hbt, if_pos rfl]
  refine ⟨rfl, by simp, ?_, ?_⟩
  · simp [cache_text, cacheGet_cacheSet, hneq]
  · simp [cache_text, cacheGet_cacheSet, hne1, hne2]

def envC10W : Env :=
  { envBase with
    zip := fun p => if p = "b.zip"
      then { size := 10, openErr := none, testErr := none,
             entries := [{ name := "doc1.docx", readErr := none, size := 4,
                           utf8 := none, cp1251 := none }] }
      else zipViewBase,
    docx := fun p => if p = "/tmp/t0.docx" then .ok ["привет"] else .error ("нет") }

/-- C10 witness: the concrete scenario, with the record stored under
"/tmp/t0.docx" which is also on the deleted-temporaries list. -/
theorem c10_cache_record_witness :
    pyLower (pathSuffix "b.zip") = ".zip" ∧
    ((extract_text envC10W (fun _ => false) [] 0 "b.zip").success = true ∧
     "/tmp/t0.docx" ∈ (extract_text envC10W (fun _ => false) [] 0 "b.zip").temps ∧
     cacheGet (extract_text envC10W (fun _ => false) [] 0 "b.zip").cache
        "/tmp/t0.docx" =
       some ⟨get_file_hash envC10W.stat "/tmp/t0.docx",
             pyJoin ("\n") ((["привет"] : List String).filter (fun t => pyTruthy t))⟩ ∧
     cacheGet (extract_text envC10W (fun _ => false) [] 0 "b.zip").cache
        "doc1.docx" = cacheGet [] "doc1.docx") :=
  ⟨by decide,
   c10_cache_record_keyed_by_temp_path envC10W (fun _ => false) [] 0 "b.zip"
     "doc1.docx" "/tmp/t0.docx" 10 4 ["привет"]
     (by decide) (by decide) (by decide) (by decide) (by decide) (by decide)
     (by decide) (by decide) (by decide) (by decide) (by decide) (by decide)
     (by decide) (by decide) (by decide) (by decide) (by decide)⟩
